import Mathlib

/-!
# Verification of the Percy core: protocol session and orchestrator

Shallow embedding of `src/packages/core/src/page.js` (the per-target
protocol session) and `src/packages/core/src/percy.js` (the queue-based
orchestrator), with theorems settling the frozen claims about them.

JavaScript values are modelled explicitly: `null`/absent fields become
`Option`, JS truthiness of strings (`null` and `""` are falsy) and of
numeric ids (`0` is falsy) is modelled by dedicated helpers.
-/

namespace Spec2Proof

/-! ## JS value helpers -/

/-- An opaque protocol payload value (result / params); its structure is
never inspected by the session layer. -/
abbrev Value := String

/-- JS truthiness of a nullable string: `null` and the empty string are
falsy, every other string is truthy. -/
def strTruthy : Option String → Bool
  | none => false
  | some s => !s.isEmpty

/-- JS `a ||= d` on a nullable string slot: keeps `a` when truthy,
otherwise stores `d`. -/
def orTruthy (o : Option String) (d : String) : Option String :=
  if strTruthy o then o else some d

/-- The string a truthy nullable string interpolates to. -/
def strVal (o : Option String) : String := o.getD ""

/-- JS truthiness of a nullable numeric id (`data.id && ...`): absent and
`0` are falsy. -/
def truthyId : Option Nat → Option Nat
  | none => none
  | some i => if i = 0 then none else some i

/-! ## Protocol session state (`page.js`)

`Page` holds a private map `#callbacks` of in-flight calls keyed by the
transport correlation id, a `closedReason` (null while open), a reference
to the owning browser, and membership in the parent's `frames` set.  The
browser allocates correlation ids monotonically starting at 1, modelled
by `nextId`. -/

/-- One pending call: the method name is kept for diagnostics and used in
rejection messages (`{ error, resolve, reject, method }` in the source;
the resolution slots and the captured call-site `Error` need no model
beyond the message computed at rejection time). -/
structure PendingCall where
  method : String
deriving Repr, DecidableEq

/-- A remote error payload `{ message, data? }`; `data?` is `none` when
the `data` key is absent from the wire object. -/
structure RemoteError where
  message : String
  data? : Option String
deriving Repr, DecidableEq

/-- An inbound wire message: a response carries an `id`, an event does
not (modelled by `id? = none`; `some 0` is also treated as absent by the
source's truthiness check). -/
structure InMessage where
  id? : Option Nat
  error? : Option RemoteError
  result : Value
  method : String
  params : Value
deriving Repr, DecidableEq

/-- The session state of one `Page`. -/
structure PageState where
  callbacks : List (Nat × PendingCall)
  closedReason : Option String
  browser : Bool
  inParentFrames : Bool
  nextId : Nat
deriving Repr, DecidableEq

/-- Observable outcomes of dispatching one inbound message or closing. -/
inductive PageAction where
  | resolved (id : Nat) (result : Value)
  | rejected (id : Nat) (message : String)
  | emitted (method : String) (params : Value)
deriving Repr, DecidableEq

/-- `Protocol error (${method}): ${error.message}` plus `: ${error.data}`
when the `data` key is present (`_handleMessage`, page.js:304-305). -/
def errorText (method : String) (e : RemoteError) : String :=
  "Protocol error (" ++ method ++ "): " ++ e.message ++
    (match e.data? with
     | some d => ": " ++ d
     | none => "")

/-- `Protocol error (${method}): ${reason}` (page.js:282, 322). -/
def closeText (method reason : String) : String :=
  "Protocol error (" ++ method ++ "): " ++ reason

/-- `Map.delete` on the callback map: removes the entry keyed `i`. -/
def cbDelete (l : List (Nat × PendingCall)) (i : Nat) :
    List (Nat × PendingCall) :=
  l.filter (fun p => !(p.1 == i))

/-- `_handleMessage` (page.js:295-314): a message whose truthy `id`
matches a pending callback resolves or rejects it and deletes it from
the map; every other message is emitted as an event. -/
def handleMessage (s : PageState) (m : InMessage) : PageState × PageAction :=
  match truthyId m.id? with
  | some i =>
    match List.lookup i s.callbacks with
    | some cb =>
      let s' := { s with callbacks := cbDelete s.callbacks i }
      match m.error? with
      | some e => (s', .rejected i (errorText cb.method e))
      | none => (s', .resolved i m.result)
    | none => (s, .emitted m.method m.params)
  | none => (s, .emitted m.method m.params)

/-- `_handleClose` (page.js:316-329): defaults `closedReason`, rejects
every pending callback with the uniform protocol-error text, clears the
map, leaves the parent's `frames` set, and drops the browser
reference. -/
def handleClose (s : PageState) : PageState × List PageAction :=
  let cr := orTruthy s.closedReason "Page closed."
  let acts := s.callbacks.map
    (fun p => PageAction.rejected p.1 (closeText p.2.method (strVal cr)))
  ({ s with closedReason := cr, callbacks := [],
            inParentFrames := false, browser := false }, acts)

/-- Outcome of `send`: an immediate rejection, or a deferred result
pending under a fresh correlation id. -/
inductive SendResult where
  | rejectedNow (message : String)
  | pending (id : Nat)
deriving Repr, DecidableEq

/-- `send` (page.js:276-293): fails immediately with a protocol error
carrying `closedReason` when the session is closed (sending nothing);
otherwise transmits the message (third component records the transmitted
method) and registers a pending callback under the allocated id. -/
def send (s : PageState) (method : String) :
    PageState × SendResult × Option String :=
  if strTruthy s.closedReason then
    (s, .rejectedNow (closeText method (strVal s.closedReason)), none)
  else
    let id := s.nextId
    ({ s with nextId := id + 1,
              callbacks := s.callbacks ++ [(id, ⟨method⟩)] },
     .pending id, some method)

/-- Correlation ids are allocated monotonically: every pending key is
below the allocator. -/
def pageWF (s : PageState) : Prop :=
  ∀ p ∈ s.callbacks, p.1 < s.nextId

/-- An action settles (resolves or rejects) the call with id `i`. -/
def settles (a : PageAction) (i : Nat) : Bool :=
  match a with
  | .resolved j _ => j == i
  | .rejected j _ => j == i
  | .emitted _ _ => false

/-! ## Navigation (`goto`, page.js:128-177)

`goto` installs two one-shot watchers — "frame navigated to this frame"
and "lifecycle event named `waitUntil` for this frame" — then runs the
navigate call concurrently with a poll loop bounded by `PAGE_TIMEOUT`.
The poll helper `waitFor` lives in `utils.js`, which is not part of the
sources here; its loop is modelled from the spec. -/

/-- Strict maximum timeout for `.goto` and `.snapshot` (page.js:8). -/
def PAGE_TIMEOUT : Nat := 30000

/-- Modelled from the spec: `waitFor` (utils.js, absent from the
sources) polls its predicate "at short fixed intervals"; the interval
length in milliseconds. -/
def POLL_INTERVAL : Nat := 10

/-- Number of poll iterations available before the hard timeout. -/
def gotoFuel : Nat := PAGE_TIMEOUT / POLL_INTERVAL

/-- A one-shot navigation watcher: flips `finished` and self-detaches on
match (page.js:155). -/
structure Watcher where
  finished : Bool
  attached : Bool
deriving Repr, DecidableEq

/-- Watchers start unfinished and attached (page.js:154-158). -/
def initWatcher : Watcher := ⟨false, true⟩

/-- Session events relevant to navigation. -/
inductive PageEvent where
  | frameNavigated (frameId : String)
  | lifecycleEvent (frameId : String) (name : String)
  | other
deriving Repr, DecidableEq

/-- The `Page.frameNavigated` watcher: fires while attached when
`this.frameId === e.frame.id` (page.js:152). -/
def stepNavWatcher (myFrame : Option String) (w : Watcher) (e : PageEvent) :
    Watcher :=
  match e with
  | .frameNavigated fid =>
    if w.attached && (myFrame == some fid) then ⟨true, false⟩ else w
  | _ => w

/-- The `Page.lifecycleEvent` watcher: fires while attached when
`this.frameId === e.frameId && e.name === waitUntil` (page.js:153). -/
def stepLifecycleWatcher (myFrame : Option String) (waitUntil : String)
    (w : Watcher) (e : PageEvent) : Watcher :=
  match e with
  | .lifecycleEvent fid name =>
    if w.attached && (myFrame == some fid) && (name == waitUntil) then
      ⟨true, false⟩
    else w
  | _ => w

/-- Deliver one event to both watchers. -/
def stepWatchers (myFrame : Option String) (waitUntil : String)
    (ws : Watcher × Watcher) (e : PageEvent) : Watcher × Watcher :=
  (stepNavWatcher myFrame ws.1 e, stepLifecycleWatcher myFrame waitUntil ws.2 e)

/-- One poll interval of the environment: the events delivered before
the predicate runs, and the session's `closedReason` at that instant. -/
structure Tick where
  events : List PageEvent
  closed : Option String

/-- Watcher states after the first `k` ticks of a trace. -/
def watchersAt (myFrame : Option String) (waitUntil : String)
    (trace : Nat → Tick) : Nat → Watcher × Watcher
  | 0 => (initWatcher, initWatcher)
  | k + 1 =>
    ((trace k).events).foldl (stepWatchers myFrame waitUntil)
      (watchersAt myFrame waitUntil trace k)

/-- Result of the navigation wait: both watcher slots plus success or an
error message. -/
structure GotoWaitResult where
  w1 : Watcher
  w2 : Watcher
  result : Except String Unit
deriving Repr

/-- Modelled from the spec: the `waitFor` poll loop (utils.js, absent
from the sources) specialised to `goto`'s predicate (page.js:163-166):
each iteration delivers the tick's events, then throws `closedReason`
when the session has closed, succeeds when both watchers are finished,
and otherwise polls again; exhausted fuel is the hard timeout. -/
def gotoWaitAux (myFrame : Option String) (waitUntil : String)
    (trace : Nat → Tick) :
    Nat → Nat → Watcher × Watcher → GotoWaitResult
  | 0, _, ws => ⟨ws.1, ws.2, .error "Timeout"⟩
  | fuel + 1, k, ws =>
    let ws' := ((trace k).events).foldl (stepWatchers myFrame waitUntil) ws
    if strTruthy (trace k).closed then
      ⟨ws'.1, ws'.2, .error (strVal (trace k).closed)⟩
    else if ws'.1.finished && ws'.2.finished then ⟨ws'.1, ws'.2, .ok ()⟩
    else gotoWaitAux myFrame waitUntil trace fuel (k + 1) ws'

/-- The full navigation wait, from freshly attached watchers. -/
def gotoWait (myFrame : Option String) (waitUntil : String)
    (trace : Nat → Tick) : GotoWaitResult :=
  gotoWaitAux myFrame waitUntil trace gotoFuel 0 (initWatcher, initWatcher)

/-- `handler.off()` on both watchers (page.js:169). -/
def detachBoth (ws : Watcher × Watcher) : Watcher × Watcher :=
  ({ ws.1 with attached := false }, { ws.2 with attached := false })

/-- `goto` (page.js:128-177): a truthy `res.errorText` from the
navigate call fails immediately; otherwise the poll loop decides the
outcome.  Every failure lands in the `catch` block, which detaches both
watchers and puts the `Navigation failed: ` marker in front of the
message. -/
def goto (myFrame : Option String) (waitUntil : String)
    (navError : Option String) (trace : Nat → Tick) : GotoWaitResult :=
  if strTruthy navError then
    let ws := detachBoth (initWatcher, initWatcher)
    ⟨ws.1, ws.2, .error ("Navigation failed: " ++ strVal navError)⟩
  else
    let r := gotoWait myFrame waitUntil trace
    match r.result with
    | .ok _ => r
    | .error e =>
      let ws := detachBoth (r.w1, r.w2)
      ⟨ws.1, ws.2, .error ("Navigation failed: " ++ e)⟩

/-- The session closes (truthily) at tick `j`. -/
def tickClosed (trace : Nat → Tick) (j : Nat) : Prop :=
  strTruthy (trace j).closed = true

/-- Both watchers have fired. -/
def bothFinished (ws : Watcher × Watcher) : Bool :=
  ws.1.finished && ws.2.finished

/-- The poll predicate stops (closure or completion) at tick `j`. -/
def stopsAt (myFrame : Option String) (waitUntil : String)
    (trace : Nat → Tick) (j : Nat) : Prop :=
  tickClosed trace j ∨
    bothFinished (watchersAt myFrame waitUntil trace (j + 1)) = true

/-! ## Script evaluation (`eval`, page.js:180-218) -/

/-- The shorthand rewrite (page.js:186-188): an `async `-led body gets
its leading `async` replaced by `async function`; anything else is
turned into `function <body>`. -/
def rewriteShorthand (fnbody : String) : String :=
  if fnbody.startsWith "async " then "async function" ++ fnbody.drop 5
  else "function " ++ fnbody

/-- The helper wrap (page.js:197-201): the body is embedded in a named
function receiving the helper object first, then the caller's
arguments. -/
def wrapWithHelpers (helper fnbody : String) : String :=
  "function withPercyHelpers() \x7b" ++
    ("return (" ++ fnbody ++ ")(\x7b" ++ ("waitFor: " ++ helper) ++
      "\x7d, ...arguments)") ++ "\x7d"

/-- `exceptionDetails` from `Runtime.callFunctionOn`: carries
`exception.description`. -/
structure ExceptionDetails where
  description : String
deriving Repr, DecidableEq

/-- The remote response to `Runtime.callFunctionOn`:
`{ result, exceptionDetails }` where `result.value` is the returned
value. -/
structure EvalResponse where
  result : Value
  exceptionDetails : Option ExceptionDetails
deriving Repr, DecidableEq

/-- Outcome of one `eval`: the locally surfaced result, plus the
`functionDeclaration` of every protocol call issued. -/
structure EvalRun where
  outcome : Except String Value
  sent : List String
deriving Repr

/-- Second phase of `eval` (page.js:196-217): wrap the validated body,
issue `Runtime.callFunctionOn`, and surface the remote outcome. -/
def evalSendPhase (helper fnbody : String) (resp : EvalResponse) : EvalRun :=
  let decl := wrapWithHelpers helper fnbody
  match resp.exceptionDetails with
  | some ed => ⟨.error ed.description, [decl]⟩
  | none => ⟨.ok resp.result, [decl]⟩

/-- `eval` (page.js:180-218).  `parses` stands for the host's
`new Function('(' + body + ')')` parse check; `helper` for the injected
`waitFor` source text; `resp` for the remote response were a call to be
issued. -/
def eval (parses : String → Bool) (helper : String) (fn : String)
    (resp : EvalResponse) : EvalRun :=
  if parses ("(" ++ fn ++ ")") then evalSendPhase helper fn resp
  else
    let fnbody := rewriteShorthand fn
    if parses ("(" ++ fnbody ++ ")") then evalSendPhase helper fnbody resp
    else ⟨.error "The provided function is not serializable", []⟩

/-! ## Capture-task interception hooks (percy.js:303-316) -/

/-- One captured asset. -/
structure Resource where
  url : String
  content : String
  root : Bool
deriving Repr, DecidableEq

/-- URL-keyed resource store (a JS `Map`). -/
abbrev ResourceMap := List (String × Resource)

/-- `Map.get`. -/
def mapGet (m : ResourceMap) (url : String) : Option Resource :=
  List.lookup url m

/-- `Map.set`: last write for a URL wins. -/
def mapSet (m : ResourceMap) (url : String) (r : Resource) : ResourceMap :=
  m.filter (fun p => !(p.1 == url)) ++ [(url, r)]

/-- The interception `getResource` hook (percy.js:307-309):
`url === root?.url ? root : (resources.get(url) || cache.get(url))`. -/
def getResource (root? : Option Resource) (resources cache : ResourceMap)
    (url : String) : Option Resource :=
  match root? with
  | some root =>
    if url == root.url then some root
    else
      match mapGet resources url with
      | some r => some r
      | none => mapGet cache url
  | none =>
    match mapGet resources url with
    | some r => some r
    | none => mapGet cache url

/-- The interception `addResource` hook (percy.js:310-314): root-flagged
resources are ignored; every other resource is recorded in the per-task
map and the shared cache. -/
def addResource (resources cache : ResourceMap) (resource : Resource) :
    ResourceMap × ResourceMap :=
  if resource.root then (resources, cache)
  else
    (mapSet resources resource.url resource,
     mapSet cache resource.url resource)

/-! ## Concurrency queue

`queue.js` is not part of the sources here; every operation below is
modelled from the spec (§4.2). -/

/-- Modelled from the spec: a queue's observable state — whether
dispatch is paused (`running`), whether it stopped accepting new tasks
(`closed`), and the keys of the tasks it still holds. -/
structure QueueState where
  running : Bool
  closed : Bool
  tasks : List String
deriving Repr, DecidableEq

/-- A fresh queue: running, open, empty. -/
def initQueue : QueueState := ⟨true, false, []⟩

/-- Modelled from the spec: `push` — a closed queue accepts no new
tasks; an existing key is returned instead of duplicated; otherwise the
task is appended in FIFO order. -/
def qpush (q : QueueState) (key : String) : QueueState :=
  if q.closed then q
  else if q.tasks.contains key then q
  else { q with tasks := q.tasks ++ [key] }

/-- Modelled from the spec: `push` with priority `0` — the task is
placed ahead of normal FIFO order. -/
def qpushFront (q : QueueState) (key : String) : QueueState :=
  if q.closed then q
  else if q.tasks.contains key then q
  else { q with tasks := key :: q.tasks }

/-- Modelled from the spec: `clear(key)` — cancels and removes
not-yet-started tasks with this key. -/
def qclear (q : QueueState) (key : String) : QueueState :=
  { q with tasks := q.tasks.filter (fun k => !(k == key)) }

/-- Modelled from the spec: `stop()` — pauses dispatch. -/
def qstop (q : QueueState) : QueueState := { q with running := false }

/-- Modelled from the spec: `run()` — resumes dispatch. -/
def qrun (q : QueueState) : QueueState := { q with running := true }

/-- Modelled from the spec: `close(force?)` — stops accepting new
tasks; with `force`, also cancels queued and in-flight tasks
immediately. -/
def qclose (q : QueueState) (force : Bool) : QueueState :=
  { q with closed := true, tasks := if force then [] else q.tasks }

/-- Modelled from the spec: `empty(onProgress)` — drains the queue,
invoking the progress callback with the remaining count as each task
completes (`n-1, …, 0` for `n` tasks). -/
def qempty (q : QueueState) : QueueState × List Nat :=
  ({ q with tasks := [] }, (List.range q.tasks.length).reverse)

/-! ## Orchestrator (`percy.js`) -/

/-- The remote build identity plus the permanent `failed` flag. -/
structure BuildInfo where
  id : String
  number : Nat
  url : String
  failed : Bool
deriving Repr, DecidableEq

/-- A concrete build identity as stored by the build-create task. -/
def defaultBuild : BuildInfo := ⟨"build-id", 1, "https://percy.io/build/1", false⟩

/-- Orchestrator state: `readyState` is `null | 0 | 1 | 2 | 3`
(unstarted, starting, running, stopping, stopped), plus the two queues,
the build slot, and the upload-mode flags fixed at construction. -/
structure PercyState where
  readyState : Option Nat
  snapshots : QueueState
  uploads : QueueState
  build : Option BuildInfo
  skipUploads : Bool
  deferUploads : Bool
deriving Repr, DecidableEq

/-- The constructor (percy.js:36-84): `deferUploads` absorbs
`skipUploads`, and a deferred instance starts with its upload queue
paused. -/
def percyInit (skipUploads deferUploads : Bool) : PercyState :=
  let defer := skipUploads || deferUploads
  { readyState := none
    snapshots := initQueue
    uploads := if defer then qstop initQueue else initQueue
    build := none
    skipUploads := skipUploads
    deferUploads := defer }

/-- `close()` (percy.js:109-112): force-closes both queues. -/
def close (s : PercyState) : PercyState :=
  { s with snapshots := qclose s.snapshots true
           uploads := qclose s.uploads true }

/-- The `build/create` task body (percy.js:122-133): pauses the upload
queue, creates the remote build, stores its identity, and resumes the
queue; `ok` is whether the remote call succeeded. -/
def runBuildCreate (s : PercyState) (ok : Bool) : PercyState × Bool :=
  let uploads :=
    { qstop s.uploads with
        tasks := s.uploads.tasks.filter (fun k => !(k == "build/create")) }
  if ok then
    ({ s with uploads := qrun uploads, build := some defaultBuild }, true)
  else
    ({ s with uploads := uploads }, false)

/-- The deferred build-failure handler (percy.js:136-142): logs and
tears the instance down by force-closing both queues. -/
def deferredBuildFailure (s : PercyState) : PercyState := close s

/-- `start()` (percy.js:116-168): returns without effect unless
`readyState` is null; sets `readyState = 0`, queues the top-priority
build task (awaited when uploads are not deferred), then launches
browser and server — success sets `readyState = 1`, any failure sets
`readyState = 3` and rethrows. -/
def start (s : PercyState) (buildOk startupOk : Bool) :
    PercyState × Except String Unit :=
  if s.readyState.isSome then (s, .ok ())
  else
    let s1 := { s with readyState := some 0
                       uploads := qpushFront s.uploads "build/create" }
    let step := if s1.deferUploads then (s1, true) else runBuildCreate s1 buildOk
    if step.2 then
      if startupOk then ({ step.1 with readyState := some 1 }, .ok ())
      else ({ step.1 with readyState := some 3 }, .error "startup failed")
    else ({ step.1 with readyState := some 3 }, .error "Failed to create build")

/-- Observable steps of `stop()`. -/
inductive StopAction where
  | snapProgress (n : Nat)
  | upProgress (n : Nat)
  | serverClosed
  | browserClosed
  | warnFailed
  | finalized
  | warnNoBuild
deriving Repr, DecidableEq

/-- The guard `!this.readyState || this.readyState > 2`
(percy.js:174). -/
def stopEarlyReturn : Option Nat → Bool
  | none => true
  | some n => n == 0 || decide (n > 2)

/-- The drain phase of `stop` (percy.js:181-219), factored out: from
`s0` onwards — `readyState = 2`, close and (when non-empty) drain the
snapshot queue with progress, then unless uploads are skipped resume,
close and drain the upload queue with progress, tear down server and
browser, finalize or warn about the build, `readyState = 3`. -/
def stopDrain (s0 : PercyState) : PercyState × List StopAction :=
  let s1 := { s0 with readyState := some 2 }
  let snapClosed := qclose s1.snapshots false
  let snapStep :=
    if snapClosed.tasks.length != 0 then qempty snapClosed
    else (snapClosed, [])
  let s2 := { s1 with snapshots := snapStep.1 }
  let upStep :=
    if s2.skipUploads then (s2.uploads, [])
    else
      let upClosed := qclose (qrun s2.uploads) false
      if upClosed.tasks.length != 0 then qempty upClosed
      else (upClosed, [])
  let s3 := { s2 with uploads := upStep.1 }
  let buildActs :=
    match s3.build with
    | some b =>
      if b.failed then [StopAction.warnFailed] else [StopAction.finalized]
    | none => [StopAction.warnNoBuild]
  ({ s3 with readyState := some 3 },
   snapStep.2.map StopAction.snapProgress ++
     upStep.2.map StopAction.upProgress ++
     [StopAction.serverClosed, StopAction.browserClosed] ++ buildActs)

/-- `stop(force)` (percy.js:172-220): early return unless started and
not yet stopped; `force` force-closes both queues at once; a second
concurrent stop returns; otherwise the drain phase runs. -/
def stop (s : PercyState) (force : Bool) : PercyState × List StopAction :=
  if stopEarlyReturn s.readyState then (s, [])
  else
    let s0 := if force then close s else s
    if s0.readyState == some 2 then (s0, [])
    else stopDrain s0

/-- `snapshot(options)` (percy.js:233-263): throws `Not running` unless
`readyState` is 1; clears any pending upload for the same name and
pushes the capture task keyed by name. -/
def snapshot (s : PercyState) (name : String) :
    PercyState × Except String String :=
  if !(s.readyState == some 1) then (s, .error "Not running")
  else
    ({ s with uploads := qclear s.uploads ("upload/" ++ name)
              snapshots := qpush s.snapshots ("snapshot/" ++ name) },
     .ok ("snapshot/" ++ name))

/-- `_scheduleUpload` queueing step (percy.js:373-374). -/
def scheduleUpload (s : PercyState) (name : String) : PercyState :=
  { s with uploads := qpush s.uploads ("upload/" ++ name) }

/-- `e.source?.pointer` of one remote error item. -/
structure ErrorItem where
  pointer : Option String
  detail : String
deriving Repr, DecidableEq

/-- `error.response` of a failed upload: HTTP status and
`body.errors`. -/
structure ErrorResponse where
  status : Nat
  errors : List ErrorItem
deriving Repr, DecidableEq

/-- An upload failure; `response` is absent for purely local errors. -/
structure UploadError where
  response : Option ErrorResponse
deriving Repr, DecidableEq

/-- The build-fatal test (percy.js:388-391):
`error.response?.status === 422` and some error item whose
`source.pointer` is `/data/attributes/build`. -/
def buildFailureOf (e : UploadError) : Option ErrorItem :=
  match e.response with
  | some r =>
    if r.status == 422 then
      r.errors.find? (fun it => it.pointer == some "/data/attributes/build")
    else none
  | none => none

/-- The upload task body's outcome handling (percy.js:374-402): success
leaves the state alone; a build-fatal failure sets `build.failed` and
force-closes both queues; every other failure is logged and swallowed.
The handler is total — no outcome makes the task itself reject — and it
never re-queues the task. -/
def runUploadTask (s : PercyState) (outcome : Except UploadError Unit) :
    PercyState :=
  match outcome with
  | .ok _ => s
  | .error e =>
    match buildFailureOf e with
    | some _ =>
      close { s with build := s.build.map (fun b => { b with failed := true }) }
    | none => s

/-- Every orchestrator step that touches the shared state. -/
inductive PercyOp where
  | opStart (buildOk startupOk : Bool)
  | opStop (force : Bool)
  | opSnapshot (name : String)
  | opSchedule (name : String)
  | opRunUpload (outcome : Except UploadError Unit)
  | opDeferredBuildFailure
  | opClose
  | opRunBuildCreate (ok : Bool)

/-- State transition of one orchestrator step. -/
def applyOp (s : PercyState) : PercyOp → PercyState
  | .opStart b st => (start s b st).1
  | .opStop f => (stop s f).1
  | .opSnapshot n => (snapshot s n).1
  | .opSchedule n => scheduleUpload s n
  | .opRunUpload o => runUploadTask s o
  | .opDeferredBuildFailure => deferredBuildFailure s
  | .opClose => close s
  | .opRunBuildCreate ok => (runBuildCreate s ok).1

/-- A queue that is force-closed: accepting nothing and holding
nothing. -/
def forceClosed (q : QueueState) : Prop := q.closed = true ∧ q.tasks = []

/-- The build exists and is marked failed. -/
def buildFailed (s : PercyState) : Prop :=
  ∃ b, s.build = some b ∧ b.failed = true

/-- The §3 invariant: `build.failed` implies both queues are
force-closed. -/
def failClosedInv (s : PercyState) : Prop :=
  buildFailed s → forceClosed s.snapshots ∧ forceClosed s.uploads

/-- Rank of a readiness value: `null < 0 < 1 < 2 < 3`. -/
def readyRank : Option Nat → Nat
  | none => 0
  | some n => n + 1

/-- The readiness value is one of the five legal states. -/
def validReady (r : Option Nat) : Prop :=
  r = none ∨ r = some 0 ∨ r = some 1 ∨ r = some 2 ∨ r = some 3

/-- Classifies progress actions of `stop`. -/
def isSnapProgress : StopAction → Bool
  | .snapProgress _ => true
  | _ => false

/-- Classifies upload progress actions of `stop`. -/
def isUpProgress : StopAction → Bool
  | .upProgress _ => true
  | _ => false

/-- The remaining-count carried by a snapshot progress action. -/
def snapValue? : StopAction → Option Nat
  | .snapProgress n => some n
  | _ => none

/-- The remaining-count carried by an upload progress action. -/
def upValue? : StopAction → Option Nat
  | .upProgress n => some n
  | _ => none

/-! ### List lemmas for the callback map -/

lemma lookup_cbDelete_self (l : List (Nat × PendingCall)) (i : Nat) :
    List.lookup i (cbDelete l i) = none := by
  induction l with
  | nil => rfl
  | cons hd tl ih =>
    by_cases h : hd.1 = i
    · simpa [cbDelete, List.filter_cons, h] using ih
    · have hne : (i == hd.1) = false := by
        simp [beq_iff_eq]; omega
      simpa [cbDelete, List.filter_cons, h, List.lookup, hne] using ih

lemma lookup_cbDelete_other (l : List (Nat × PendingCall)) (i j : Nat)
    (hij : j ≠ i) :
    List.lookup j (cbDelete l i) = List.lookup j l := by
  induction l with
  | nil => rfl
  | cons hd tl ih =>
    by_cases h : hd.1 = i
    · have : (j == hd.1) = false := by
        simp [beq_iff_eq]; omega
      have hji : (j == i) = false := by simp [beq_iff_eq, hij]
      simp [cbDelete, List.filter_cons, h, List.lookup, this, hji] at ih ⊢
      exact ih
    · by_cases hj : j = hd.1
      · simp [cbDelete, List.filter_cons, h, List.lookup, hj]
      · have : (j == hd.1) = false := by simp [beq_iff_eq, hj]
        simp [cbDelete, List.filter_cons, h, List.lookup, this] at ih ⊢
        exact ih

lemma lookup_append_right (l : List (Nat × PendingCall)) (i : Nat)
    (cb : PendingCall) (h : ∀ p ∈ l, p.1 ≠ i) :
    List.lookup i (l ++ [(i, cb)]) = some cb := by
  induction l with
  | nil => simp [List.lookup]
  | cons hd tl ih =>
    have hhd : hd.1 ≠ i := h hd (by simp)
    have : (i == hd.1) = false := by simp [beq_iff_eq]; omega
    simpa [List.lookup, this] using ih (fun p hp => h p (by simp [hp]))

lemma settles_handleMessage_of_not_pending (s : PageState) (i : Nat)
    (h : List.lookup i s.callbacks = none) (m : InMessage) :
    settles (handleMessage s m).2 i = false := by
  cases hm : truthyId m.id? with
  | none => simp [handleMessage, hm, settles]
  | some j =>
    cases hl : List.lookup j s.callbacks with
    | none => simp [handleMessage, hm, hl, settles]
    | some cb =>
      have hji : j ≠ i := by
        rintro rfl
        rw [h] at hl
        exact Option.noConfusion hl
      cases he : m.error? <;>
        simp [handleMessage, hm, hl, he, settles, beq_iff_eq, hji]

lemma settles_handleMessage_imp (s : PageState) (m : InMessage) (i : Nat)
    (h : settles (handleMessage s m).2 i = true) :
    truthyId m.id? = some i := by
  cases hm : truthyId m.id? with
  | none => simp [handleMessage, hm, settles] at h
  | some j =>
    cases hl : List.lookup j s.callbacks with
    | none => simp [handleMessage, hm, hl, settles] at h
    | some cb =>
      cases he : m.error? <;>
        simp only [handleMessage, hm, hl, he, settles, beq_iff_eq] at h <;>
        rw [h]

lemma settles_handleMessage_of_pending (s : PageState) (m : InMessage)
    (i : Nat) (cb : PendingCall) (hl : List.lookup i s.callbacks = some cb)
    (hm : truthyId m.id? = some i) :
    settles (handleMessage s m).2 i = true := by
  cases he : m.error? <;> simp [handleMessage, hm, hl, he, settles]

lemma strTruthy_orTruthy_pageClosed (o : Option String) :
    strTruthy (orTruthy o "Page closed.") = true := by
  unfold orTruthy
  by_cases h : strTruthy o = true
  · simp [h]
  · simp [h]
    decide

lemma handleMessage_callbacks_of_match (s : PageState) (m : InMessage)
    (i : Nat) (cb : PendingCall) (hid : truthyId m.id? = some i)
    (hcb : List.lookup i s.callbacks = some cb) :
    (handleMessage s m).1.callbacks = cbDelete s.callbacks i := by
  cases he : m.error? <;> simp [handleMessage, hid, hcb, he]

/-! ## Claim theorems -/

/-- C1: every inbound message whose truthy id matches a Pending Call
resolves (success) or rejects (error responses merge the remote message
and optional diagnostic payload) exactly that call and removes it from
the pending map, so the call receives exactly one resolution — after the
match no later message can settle the same id; any inbound message whose
id matches no Pending Call is instead emitted as an event to the
session's local listeners. -/
theorem c1_inbound_dispatch (s : PageState) (m : InMessage) :
    (∀ i cb, truthyId m.id? = some i →
      List.lookup i s.callbacks = some cb →
      handleMessage s m =
        ({ s with callbacks := cbDelete s.callbacks i },
          match m.error? with
          | some e => PageAction.rejected i (errorText cb.method e)
          | none => PageAction.resolved i m.result) ∧
      List.lookup i (handleMessage s m).1.callbacks = none ∧
      (∀ m2 : InMessage,
        settles (handleMessage (handleMessage s m).1 m2).2 i = false)) ∧
    ((∀ i, truthyId m.id? = some i → List.lookup i s.callbacks = none) →
      handleMessage s m = (s, PageAction.emitted m.method m.params)) := by
  constructor
  · intro i cb hid hcb
    have hcbs := handleMessage_callbacks_of_match s m i cb hid hcb
    have hnone : List.lookup i (handleMessage s m).1.callbacks = none := by
      rw [hcbs]; exact lookup_cbDelete_self _ _
    refine ⟨?_, hnone, ?_⟩
    · cases he : m.error? <;> simp [handleMessage, hid, hcb, he]
    · intro m2
      exact settles_handleMessage_of_not_pending _ i hnone m2
  · intro hno
    cases hid : truthyId m.id? with
    | none => simp [handleMessage, hid]
    | some i => simp [handleMessage, hid, hno i hid]

/-- C1 witness: a response with id 1 resolves the pending call with id 1
and removes it. -/
theorem c1_inbound_dispatch_witness :
    handleMessage
      ⟨[(1, ⟨"Page.enable"⟩)], none, true, true, 2⟩
      ⟨some 1, none, "r", "", ""⟩ =
      (⟨[], none, true, true, 2⟩, PageAction.resolved 1 "r") := by
  have h := (c1_inbound_dispatch
      ⟨[(1, ⟨"Page.enable"⟩)], none, true, true, 2⟩
      ⟨some 1, none, "r", "", ""⟩).1 1 ⟨"Page.enable"⟩ (by decide) (by rfl)
  exact h.1

/-- C2: closing a session rejects every currently Pending Call exactly
once with a protocol-error message embedding that call's method and the
close reason, leaves the pending map empty, detaches the session from
its parent's child set, drops the browser reference, and any `send`
issued afterwards is rejected immediately without transmitting anything
— so no call issued after close ever resolves successfully. -/
theorem c2_close_rejects_all (s : PageState) :
    (handleClose s).2 = s.callbacks.map (fun p =>
        PageAction.rejected p.1
          (closeText p.2.method
            (strVal (orTruthy s.closedReason "Page closed.")))) ∧
    (handleClose s).1.callbacks = [] ∧
    (handleClose s).1.inParentFrames = false ∧
    (handleClose s).1.browser = false ∧
    (∀ method, send (handleClose s).1 method =
      ((handleClose s).1,
        SendResult.rejectedNow
          (closeText method (strVal (handleClose s).1.closedReason)),
        none)) := by
  refine ⟨rfl, rfl, rfl, rfl, ?_⟩
  intro method
  have hcr : (handleClose s).1.closedReason =
      orTruthy s.closedReason "Page closed." := rfl
  unfold send
  rw [hcr, strTruthy_orTruthy_pageClosed]
  rfl

/-- C3: `send` on a session with a truthy `closedReason` fails
immediately with a protocol error carrying that reason — the state is
untouched and nothing is transmitted; on an open session the call
becomes pending under the fresh correlation id, and among inbound
messages exactly those carrying the matching id settle it. -/
theorem c3_send (s : PageState) (method : String) :
    (strTruthy s.closedReason = true →
      send s method =
        (s, SendResult.rejectedNow
              (closeText method (strVal s.closedReason)), none)) ∧
    (strTruthy s.closedReason = false → pageWF s →
      (send s method).2.1 = SendResult.pending s.nextId ∧
      List.lookup s.nextId (send s method).1.callbacks = some ⟨method⟩ ∧
      (∀ m : InMessage,
        settles (handleMessage (send s method).1 m).2 s.nextId = true →
          truthyId m.id? = some s.nextId) ∧
      (∀ m : InMessage, truthyId m.id? = some s.nextId →
        settles (handleMessage (send s method).1 m).2 s.nextId = true)) := by
  constructor
  · intro h
    unfold send
    rw [h]
    rfl
  · intro h hwf
    have hsend : send s method =
        ({ s with nextId := s.nextId + 1,
                  callbacks := s.callbacks ++ [(s.nextId, ⟨method⟩)] },
         SendResult.pending s.nextId, some method) := by
      unfold send
      rw [h]
      rfl
    have hlook : List.lookup s.nextId (send s method).1.callbacks =
        some ⟨method⟩ := by
      rw [hsend]
      exact lookup_append_right _ _ _ (fun p hp => Nat.ne_of_lt (hwf p hp))
    refine ⟨by rw [hsend], hlook, ?_, ?_⟩
    · intro m hm
      exact settles_handleMessage_imp _ m _ hm
    · intro m hm
      exact settles_handleMessage_of_pending _ m _ _ hlook hm

/-- C3 witness: on a fresh open session, `send` returns a pending result
under correlation id 1. -/
theorem c3_send_witness :
    (send ⟨[], none, true, true, 1⟩ "Page.enable").2.1 =
      SendResult.pending 1 := by
  have h := (c3_send ⟨[], none, true, true, 1⟩ "Page.enable").2 rfl
    (by intro p hp; simp at hp)
  exact h.1

lemma mapGet_mapSet_self (m : ResourceMap) (url : String) (r : Resource) :
    mapGet (mapSet m url r) url = some r := by
  unfold mapGet mapSet
  induction m with
  | nil => simp [List.lookup]
  | cons hd tl ih =>
    by_cases h : hd.1 = url
    · simpa [List.filter_cons, h] using ih
    · have hne : (url == hd.1) = false := by
        simp [beq_iff_eq]
        exact fun hc => h hc.symm
      simpa [List.filter_cons, h, List.lookup, hne] using ih

/-- C8: an `eval` body that fails the standalone parse is rewritten into
named-function form (plain and `async ` shorthand cases); when the
rewritten text still fails to parse, `eval` fails with the
"not serializable" error and no protocol call is sent; when a call is
issued, a page-side exception is surfaced as a local error carrying the
remote exception's description, and otherwise the returned value is
returned. -/
theorem c8_eval_serialization (parses : String → Bool)
    (helper fn : String) (resp : EvalResponse) :
    (parses ("(" ++ fn ++ ")") = false →
      parses ("(" ++ rewriteShorthand fn ++ ")") = false →
      eval parses helper fn resp =
        ⟨.error "The provided function is not serializable", []⟩) ∧
    (parses ("(" ++ fn ++ ")") = false →
      parses ("(" ++ rewriteShorthand fn ++ ")") = true →
      eval parses helper fn resp =
        evalSendPhase helper (rewriteShorthand fn) resp ∧
      (fn.startsWith "async " = true →
        rewriteShorthand fn = "async function" ++ fn.drop 5) ∧
      (fn.startsWith "async " = false →
        rewriteShorthand fn = "function " ++ fn)) ∧
    (parses ("(" ++ fn ++ ")") = true →
      eval parses helper fn resp = evalSendPhase helper fn resp) ∧
    (∀ d, resp.exceptionDetails = some d →
      (eval parses helper fn resp).sent ≠ [] →
      (eval parses helper fn resp).outcome = .error d.description) ∧
    (resp.exceptionDetails = none →
      (eval parses helper fn resp).sent ≠ [] →
      (eval parses helper fn resp).outcome = .ok resp.result) := by
  refine ⟨?_, ?_, ?_, ?_, ?_⟩
  · intro h1 h2
    simp [eval, h1, h2]
  · intro h1 h2
    refine ⟨by simp [eval, h1, h2], ?_, ?_⟩
    · intro ha
      simp [rewriteShorthand, ha]
    · intro ha
      simp [rewriteShorthand, ha]
  · intro h1
    simp [eval, h1]
  · intro d hd hsent
    by_cases h1 : parses ("(" ++ fn ++ ")") = true
    · simp [eval, h1, evalSendPhase, hd]
    · by_cases h2 : parses ("(" ++ rewriteShorthand fn ++ ")") = true
      · simp [eval, eq_false_of_ne_true h1, h2, evalSendPhase, hd]
      · exfalso
        apply hsent
        simp [eval, eq_false_of_ne_true h1, eq_false_of_ne_true h2]
  · intro hd hsent
    by_cases h1 : parses ("(" ++ fn ++ ")") = true
    · simp [eval, h1, evalSendPhase, hd]
    · by_cases h2 : parses ("(" ++ rewriteShorthand fn ++ ")") = true
      · simp [eval, eq_false_of_ne_true h1, h2, evalSendPhase, hd]
      · exfalso
        apply hsent
        simp [eval, eq_false_of_ne_true h1, eq_false_of_ne_true h2]

/-- C8 witness: a body rejected by the parse oracle both raw and
rewritten makes `eval` fail fast without sending anything. -/
theorem c8_eval_serialization_witness :
    eval (fun _ => false) "wf" "nonsense" ⟨"v", none⟩ =
      ⟨.error "The provided function is not serializable", []⟩ :=
  (c8_eval_serialization (fun _ => false) "wf" "nonsense" ⟨"v", none⟩).1
    rfl rfl

/-- C9: the capture task's interception hook resolves a requested URL
first from the synthetic root resource (when a precomputed DOM was
supplied and the URL matches the root's), then from the task's own
discovered-resource map, then from the build-scoped cross-snapshot
cache; the add-hook records every newly discovered resource into both
the per-task map and the shared cache, except resources flagged as
root, which are recorded in neither. -/
theorem c9_interception_hooks (root : Resource)
    (resources cache : ResourceMap) (url : String) (r : Resource) :
    (url = root.url →
      getResource (some root) resources cache url = some root) ∧
    (∀ root? : Option Resource, (∀ rt, root? = some rt → url ≠ rt.url) →
      getResource root? resources cache url =
        match mapGet resources url with
        | some x => some x
        | none => mapGet cache url) ∧
    (r.root = false →
      mapGet (addResource resources cache r).1 r.url = some r ∧
      mapGet (addResource resources cache r).2 r.url = some r) ∧
    (r.root = true → addResource resources cache r = (resources, cache)) := by
  refine ⟨?_, ?_, ?_, ?_⟩
  · intro h
    simp [getResource, h]
  · intro root? hne
    cases hr : root? with
    | none => rfl
    | some rt =>
      have : (url == rt.url) = false := by
        simp [beq_iff_eq]
        exact hne rt hr
      simp [getResource, this]
  · intro h
    simp only [addResource, h, Bool.false_eq_true, if_false]
    exact ⟨mapGet_mapSet_self _ _ _, mapGet_mapSet_self _ _ _⟩
  · intro h
    simp [addResource, h]

/-- C9 witness: with a matching root URL the synthetic root wins even
when the per-task map holds an entry for the same URL. -/
theorem c9_interception_hooks_witness :
    getResource (some ⟨"http://u/", "root-dom", true⟩)
      [("http://u/", ⟨"http://u/", "other", false⟩)] [] "http://u/" =
      some ⟨"http://u/", "root-dom", true⟩ :=
  (c9_interception_hooks ⟨"http://u/", "root-dom", true⟩
    [("http://u/", ⟨"http://u/", "other", false⟩)] [] "http://u/"
    ⟨"", "", false⟩).1 rfl

/-- C10: `stop(force)`, with or without force, while the orchestrator is
starting (`readyState` 0) returns immediately: the state — both queues,
readiness — is untouched and no teardown action is taken. -/
theorem c10_stop_while_starting (s : PercyState) (force : Bool)
    (h : s.readyState = some 0) : stop s force = (s, []) := by
  have : stopEarlyReturn s.readyState = true := by
    rw [h]
    rfl
  simp [stop, this]

/-- C10 witness: a freshly starting instance ignores even a forced
stop. -/
theorem c10_stop_while_starting_witness :
    stop { percyInit false false with readyState := some 0 } true =
      ({ percyInit false false with readyState := some 0 }, []) :=
  c10_stop_while_starting _ true rfl

/-! ### Orchestrator helper lemmas -/

lemma start_noop (s : PercyState) (b st : Bool) (h : s.readyState ≠ none) :
    start s b st = (s, .ok ()) := by
  cases hr : s.readyState with
  | none => exact absurd hr h
  | some n => simp [start, hr]

lemma start_ready (s : PercyState) (b st : Bool) (h : s.readyState = none) :
    (start s b st).1.readyState = some 1 ∨
      (start s b st).1.readyState = some 3 := by
  by_cases hd : s.deferUploads = true
  · cases st <;> simp [start, h, hd]
  · cases b <;> cases st <;> simp [start, h, hd, runBuildCreate]

lemma stopEarly_false_cases (r : Option Nat) (h : stopEarlyReturn r = false) :
    r = some 1 ∨ r = some 2 := by
  cases r with
  | none => simp [stopEarlyReturn] at h
  | some n =>
    simp [stopEarlyReturn] at h
    obtain ⟨h1, h2⟩ := h
    have : n = 1 ∨ n = 2 := by omega
    rcases this with h | h <;> [left; right] <;> rw [h]

lemma close_ready (s : PercyState) : (close s).readyState = s.readyState := rfl

lemma stopDrain_ready (X : PercyState) :
    (stopDrain X).1.readyState = some 3 := rfl

lemma stopDrain_build (X : PercyState) :
    (stopDrain X).1.build = X.build := rfl

lemma stop_ready_cases (s : PercyState) (f : Bool) :
    (stop s f).1.readyState = s.readyState ∨
      (s.readyState = some 1 ∧ (stop s f).1.readyState = some 3) := by
  by_cases he : stopEarlyReturn s.readyState = true
  · left; simp [stop, he]
  · have he' := eq_false_of_ne_true he
    have hs0 : (if f then close s else s).readyState = s.readyState := by
      cases f <;> rfl
    rcases stopEarly_false_cases _ he' with h1 | h2
    · right
      refine ⟨h1, ?_⟩
      simp [stop, stopEarlyReturn, he', hs0, h1, stopDrain_ready]
    · left
      simp [stop, stopEarlyReturn, hs0, h2]

lemma snapshot_ready (s : PercyState) (n : String) :
    (snapshot s n).1.readyState = s.readyState := by
  unfold snapshot
  split <;> rfl

lemma runUploadTask_ready (s : PercyState) (o : Except UploadError Unit) :
    (runUploadTask s o).readyState = s.readyState := by
  cases o with
  | ok _ => rfl
  | error e =>
    cases hb : buildFailureOf e <;> simp [runUploadTask, hb, close]

lemma runBuildCreate_ready (s : PercyState) (ok : Bool) :
    (runBuildCreate s ok).1.readyState = s.readyState := by
  cases ok <;> rfl

lemma snapshot_not_running (s : PercyState) (n : String)
    (h : s.readyState ≠ some 1) :
    snapshot s n = (s, .error "Not running") := by
  have : (s.readyState == some 1) = false := by
    simp [beq_iff_eq]
    exact h
  simp [snapshot, this]

lemma stop_noop_unstarted (s : PercyState) (f : Bool)
    (h : s.readyState = none) : stop s f = (s, []) := by
  simp [stop, stopEarlyReturn, h]

/-- C5: the orchestrator's readiness only ever advances through
`{unstarted, starting, running, stopping, stopped}` — every step either
keeps the state or strictly increases its rank, and legality of the
value is preserved, so no state is ever re-entered; `start()` in any
state other than unstarted returns without effect; `stop()` before
`start()` is a no-op; `snapshot()` in any state other than running fails
with the `Not running` error. -/
theorem c5_ready_state_machine :
    (∀ (s : PercyState) (op : PercyOp),
      readyRank s.readyState ≤ readyRank (applyOp s op).readyState ∧
      ((applyOp s op).readyState ≠ s.readyState →
        readyRank s.readyState < readyRank (applyOp s op).readyState) ∧
      (validReady s.readyState → validReady (applyOp s op).readyState)) ∧
    (∀ (s : PercyState) (buildOk startupOk : Bool), s.readyState ≠ none →
      start s buildOk startupOk = (s, .ok ())) ∧
    (∀ (s : PercyState) (force : Bool), s.readyState = none →
      stop s force = (s, [])) ∧
    (∀ (s : PercyState) (name : String), s.readyState ≠ some 1 →
      snapshot s name = (s, .error "Not running")) := by
  refine ⟨?_, start_noop, stop_noop_unstarted, snapshot_not_running⟩
  intro s op
  cases op with
  | opStart b st =>
    by_cases h : s.readyState = none
    · have hr := start_ready s b st h
      simp only [applyOp]
      rcases hr with hr | hr <;> rw [hr, h] <;>
        exact ⟨by decide, fun _ => by decide, fun _ => by simp [validReady]⟩
    · have hn := start_noop s b st h
      simp only [applyOp, hn]
      exact ⟨le_refl _, fun hc => absurd rfl hc, id⟩
  | opStop f =>
    rcases stop_ready_cases s f with h | ⟨h1, h3⟩
    · simp only [applyOp]
      rw [h]
      exact ⟨le_refl _, fun hc => absurd rfl hc, id⟩
    · simp only [applyOp]
      rw [h3, h1]
      exact ⟨by decide, fun _ => by decide, fun _ => by simp [validReady]⟩
  | opSnapshot n =>
    simp only [applyOp]
    rw [snapshot_ready]
    exact ⟨le_refl _, fun hc => absurd rfl hc, id⟩
  | opSchedule n =>
    exact ⟨le_refl _, fun hc => absurd rfl hc, id⟩
  | opRunUpload o =>
    simp only [applyOp]
    rw [runUploadTask_ready]
    exact ⟨le_refl _, fun hc => absurd rfl hc, id⟩
  | opDeferredBuildFailure =>
    exact ⟨le_refl _, fun hc => absurd rfl hc, id⟩
  | opClose =>
    exact ⟨le_refl _, fun hc => absurd rfl hc, id⟩
  | opRunBuildCreate ok =>
    simp only [applyOp]
    rw [runBuildCreate_ready]
    exact ⟨le_refl _, fun hc => absurd rfl hc, id⟩

/-- C5 witness: `snapshot` before `start` fails with `Not running`. -/
theorem c5_ready_state_machine_witness :
    snapshot (percyInit false false) "home" =
      (percyInit false false, .error "Not running") :=
  c5_ready_state_machine.2.2.2 (percyInit false false) "home" (by decide)

/-! ### Force-closed preservation lemmas -/

lemma qpush_closed (q : QueueState) (k : String) (h : q.closed = true) :
    qpush q k = q := by
  simp [qpush, h]

lemma qpushFront_closed (q : QueueState) (k : String) (h : q.closed = true) :
    qpushFront q k = q := by
  simp [qpushFront, h]

lemma forceClosed_qclose_true (q : QueueState) :
    forceClosed (qclose q true) := ⟨rfl, rfl⟩

lemma forceClosed_qclose_false (q : QueueState) (h : forceClosed q) :
    forceClosed (qclose q false) := ⟨rfl, h.2⟩

lemma forceClosed_qrun (q : QueueState) (h : forceClosed q) :
    forceClosed (qrun q) := ⟨h.1, h.2⟩

lemma forceClosed_qclear (q : QueueState) (k : String) (h : forceClosed q) :
    forceClosed (qclear q k) := by
  refine ⟨h.1, ?_⟩
  show q.tasks.filter _ = []
  rw [h.2]
  rfl

lemma forceClosed_qpush (q : QueueState) (k : String) (h : forceClosed q) :
    forceClosed (qpush q k) := by
  rw [qpush_closed q k h.1]
  exact h

lemma forceClosed_qpushFront (q : QueueState) (k : String)
    (h : forceClosed q) : forceClosed (qpushFront q k) := by
  rw [qpushFront_closed q k h.1]
  exact h

lemma failClosedInv_close (s : PercyState) : failClosedInv (close s) :=
  fun _ => ⟨forceClosed_qclose_true _, forceClosed_qclose_true _⟩

lemma not_buildFailed_of_defaultBuild (X : PercyState)
    (hX : X.build = some defaultBuild) : ¬ buildFailed X := by
  rintro ⟨b, hb, hf⟩
  rw [hX] at hb
  injection hb with hbe
  subst hbe
  exact absurd hf (by decide)

lemma stop_build (s : PercyState) (f : Bool) :
    (stop s f).1.build = s.build := by
  by_cases he : stopEarlyReturn s.readyState = true
  · simp [stop, he]
  · cases f with
    | false =>
      by_cases h2 : s.readyState = some 2
      · simp [stop, stopEarlyReturn, he, h2]
      · simp [stop, he, h2, stopDrain_build]
    | true =>
      by_cases h2 : s.readyState = some 2
      · simp [stop, stopEarlyReturn, he, h2, close]
      · simp [stop, he, h2, stopDrain_build, close]

lemma stopDrain_forceClosed (X : PercyState)
    (hS : forceClosed X.snapshots) (hU : forceClosed X.uploads) :
    forceClosed (stopDrain X).1.snapshots ∧
      forceClosed (stopDrain X).1.uploads := by
  have h1 : (qclose X.snapshots false).tasks = [] := hS.2
  have hc1 : ((qclose X.snapshots false).tasks.length != 0) = false := by
    rw [h1]
    rfl
  unfold stopDrain
  dsimp only
  simp only [hc1, Bool.false_eq_true, if_false]
  by_cases hsk : X.skipUploads = true
  · simp only [hsk, if_true]
    exact ⟨forceClosed_qclose_false _ hS, hU⟩
  · have h2 : (qclose (qrun X.uploads) false).tasks = [] := hU.2
    have hc2 : ((qclose (qrun X.uploads) false).tasks.length != 0)
        = false := by
      rw [h2]
      rfl
    simp only [hsk, Bool.false_eq_true, if_false, hc2]
    exact ⟨forceClosed_qclose_false _ hS,
      forceClosed_qclose_false _ (forceClosed_qrun _ hU)⟩

lemma stop_forceClosed (s : PercyState) (f : Bool)
    (hS : forceClosed s.snapshots) (hU : forceClosed s.uploads) :
    forceClosed (stop s f).1.snapshots ∧
      forceClosed (stop s f).1.uploads := by
  by_cases he : stopEarlyReturn s.readyState = true
  · have hst : stop s f = (s, []) := by simp [stop, he]
    rw [hst]
    exact ⟨hS, hU⟩
  · cases f with
    | false =>
      by_cases h2 : s.readyState = some 2
      · have hst : stop s false = (s, []) := by
          simp [stop, stopEarlyReturn, he, h2]
        rw [hst]
        exact ⟨hS, hU⟩
      · have hst : stop s false = stopDrain s := by simp [stop, he, h2]
        rw [hst]
        exact stopDrain_forceClosed s hS hU
    | true =>
      by_cases h2 : s.readyState = some 2
      · have hst : stop s true = (close s, []) := by
          simp [stop, stopEarlyReturn, he, h2, close]
        rw [hst]
        exact ⟨forceClosed_qclose_true _, forceClosed_qclose_true _⟩
      · have hst : stop s true = stopDrain (close s) := by
          simp [stop, he, h2, close]
        rw [hst]
        exact stopDrain_forceClosed _ (forceClosed_qclose_true _)
          (forceClosed_qclose_true _)

lemma inv_runBuildCreate (s : PercyState) (ok : Bool)
    (h : failClosedInv s) : failClosedInv (runBuildCreate s ok).1 := by
  cases ok with
  | true =>
    intro hb
    exact absurd hb (not_buildFailed_of_defaultBuild _ rfl)
  | false =>
    intro hb
    have hs : buildFailed s := hb
    obtain ⟨fS, fU⟩ := h hs
    refine ⟨fS, fU.1, ?_⟩
    show s.uploads.tasks.filter _ = []
    rw [fU.2]
    rfl

lemma inv_start (s : PercyState) (b st : Bool) (h : failClosedInv s) :
    failClosedInv (start s b st).1 := by
  by_cases hr : s.readyState = none
  · have hinv1 : failClosedInv
        { s with readyState := some 0,
                 uploads := qpushFront s.uploads "build/create" } := by
      intro hb
      have hs : buildFailed s := hb
      obtain ⟨fS, fU⟩ := h hs
      exact ⟨fS, forceClosed_qpushFront _ _ fU⟩
    by_cases hd : s.deferUploads = true
    · cases st <;> intro hb <;>
        simp only [start, hr, hd, Option.isSome_none] at hb ⊢ <;>
        · have hs := hinv1 hb
          simpa using hs
    · have hinv2 := inv_runBuildCreate _ b hinv1
      cases b <;> cases st <;> intro hb <;>
        simp only [start, hr, hd, Option.isSome_none] at hb ⊢ <;>
        · have hs := hinv2 (by simpa [hd] using hb)
          simpa [hd] using hs
  · rw [show (start s b st).1 = s by rw [start_noop s b st hr]]
    exact h

lemma inv_preserved (s : PercyState) (op : PercyOp)
    (h : failClosedInv s) : failClosedInv (applyOp s op) := by
  cases op with
  | opStart b st => exact inv_start s b st h
  | opStop f =>
    intro hb
    have hs : buildFailed s := by
      obtain ⟨b', hb', hf⟩ := hb
      exact ⟨b', by rw [← stop_build s f]; exact hb', hf⟩
    obtain ⟨fS, fU⟩ := h hs
    exact stop_forceClosed s f fS fU
  | opSnapshot n =>
    simp only [applyOp, snapshot]
    split
    · exact h
    · intro hb
      have hs : buildFailed s := hb
      obtain ⟨fS, fU⟩ := h hs
      exact ⟨forceClosed_qpush _ _ fS, forceClosed_qclear _ _ fU⟩
  | opSchedule n =>
    intro hb
    have hs : buildFailed s := hb
    obtain ⟨fS, fU⟩ := h hs
    exact ⟨fS, forceClosed_qpush _ _ fU⟩
  | opRunUpload o =>
    cases o with
    | ok _ => exact h
    | error e =>
      simp only [applyOp, runUploadTask]
      cases hb : buildFailureOf e with
      | none => exact h
      | some it => exact failClosedInv_close _
  | opDeferredBuildFailure => exact failClosedInv_close s
  | opClose => exact failClosedInv_close s
  | opRunBuildCreate ok => exact inv_runBuildCreate s ok h

/-- C6: an upload failure is build-fatal exactly when it is an
unprocessable-entity (422) response with an error item whose source
pointer references the build; such a failure marks `build.failed` and
force-closes both queues; any other failure (and success) leaves the
state untouched — the task body never rethrows and never re-queues
itself; and `build.failed` implies both queues are force-closed, an
invariant every orchestrator step preserves. -/
theorem c6_upload_failure_policy (s : PercyState) (e : UploadError) :
    ((buildFailureOf e).isSome = true → ∀ b, s.build = some b →
      buildFailed (runUploadTask s (.error e)) ∧
      forceClosed (runUploadTask s (.error e)).snapshots ∧
      forceClosed (runUploadTask s (.error e)).uploads) ∧
    ((buildFailureOf e).isSome = false →
      runUploadTask s (.error e) = s) ∧
    runUploadTask s (.ok ()) = s ∧
    (∀ op : PercyOp, failClosedInv s → failClosedInv (applyOp s op)) ∧
    (∀ r : ErrorResponse, e.response = some r →
      ((buildFailureOf e).isSome = true ↔ r.status = 422 ∧
        ∃ it ∈ r.errors, it.pointer = some "/data/attributes/build")) := by
  refine ⟨?_, ?_, rfl, fun op => inv_preserved s op, ?_⟩
  · intro hf b hbld
    cases hfo : buildFailureOf e with
    | none => rw [hfo] at hf; simp at hf
    | some it =>
      refine ⟨⟨{ b with failed := true }, ?_, rfl⟩, ?_, ?_⟩
      · simp [runUploadTask, hfo, close, hbld]
      · simp only [runUploadTask, hfo]
        exact forceClosed_qclose_true _
      · simp only [runUploadTask, hfo]
        exact forceClosed_qclose_true _
  · intro hf
    cases hfo : buildFailureOf e with
    | none => simp [runUploadTask, hfo]
    | some it => rw [hfo] at hf; simp at hf
  · intro r hr
    simp only [buildFailureOf, hr]
    by_cases hst : r.status = 422
    · have hb : (r.status == 422) = true := by simp [beq_iff_eq, hst]
      simp only [hb, if_true]
      rw [List.find?_isSome]
      constructor
      · rintro ⟨it, hmem, hp⟩
        exact ⟨hst, it, hmem, by simpa [beq_iff_eq] using hp⟩
      · rintro ⟨-, it, hmem, hp⟩
        exact ⟨it, hmem, by simp [beq_iff_eq, hp]⟩
    · have hb : (r.status == 422) = false := by simp [beq_iff_eq, hst]
      simp only [hb, Bool.false_eq_true, if_false]
      simp [hst]

/-- C6 witness: a 422 build-pointer failure on a running instance with a
build marks it failed and force-closes both queues. -/
theorem c6_upload_failure_policy_witness :
    buildFailed (runUploadTask
      { percyInit false false with
          readyState := some 1
          build := some defaultBuild }
      (.error ⟨some ⟨422, [⟨some "/data/attributes/build", "d"⟩]⟩⟩)) ∧
    forceClosed (runUploadTask
      { percyInit false false with
          readyState := some 1
          build := some defaultBuild }
      (.error ⟨some ⟨422, [⟨some "/data/attributes/build", "d"⟩]⟩⟩)).snapshots ∧
    forceClosed (runUploadTask
      { percyInit false false with
          readyState := some 1
          build := some defaultBuild }
      (.error ⟨some ⟨422, [⟨some "/data/attributes/build", "d"⟩]⟩⟩)).uploads :=
  (c6_upload_failure_policy
    { percyInit false false with
        readyState := some 1
        build := some defaultBuild }
    ⟨some ⟨422, [⟨some "/data/attributes/build", "d"⟩]⟩⟩).1
    (by decide) defaultBuild rfl

/-! ### Stop-drain ordering lemmas (for the progress-reporting claim) -/

lemma stop_running_eq (s : PercyState) (h : s.readyState = some 1) :
    stop s false = stopDrain s := by
  simp [stop, stopEarlyReturn, h]

lemma stopDrain_acts (X : PercyState) :
    (stopDrain X).2 =
      (if X.snapshots.tasks.length != 0
       then (List.range X.snapshots.tasks.length).reverse
       else []).map StopAction.snapProgress ++
      ((if X.skipUploads then []
        else if X.uploads.tasks.length != 0
        then (List.range X.uploads.tasks.length).reverse
        else []).map StopAction.upProgress ++
       ([StopAction.serverClosed, StopAction.browserClosed] ++
        (match X.build with
         | some b => if b.failed then [StopAction.warnFailed]
                     else [StopAction.finalized]
         | none => [StopAction.warnNoBuild]))) := by
  unfold stopDrain qempty qclose qrun
  dsimp only
  by_cases h1 : (X.snapshots.tasks.length != 0) = true <;>
    by_cases h2 : X.skipUploads = true <;>
      by_cases h3 : (X.uploads.tasks.length != 0) = true <;>
        simp [h1, h2, h3]

lemma stopDrain_snapshots_tasks (X : PercyState) :
    (stopDrain X).1.snapshots.tasks = [] := by
  unfold stopDrain qempty qclose
  dsimp only
  by_cases h1 : (X.snapshots.tasks.length != 0) = true
  · simp [h1]
  · have : X.snapshots.tasks.length = 0 := by
      simpa using h1
    simp [h1, List.eq_nil_of_length_eq_zero this]

lemma stopDrain_uploads_drained (X : PercyState) (h : X.skipUploads = false) :
    (stopDrain X).1.uploads.closed = true ∧
      (stopDrain X).1.uploads.tasks = [] := by
  unfold stopDrain qempty qclose qrun
  dsimp only
  by_cases h3 : (X.uploads.tasks.length != 0) = true
  · simp [h, h3]
  · have : X.uploads.tasks.length = 0 := by
      simpa using h3
    simp [h, h3, List.eq_nil_of_length_eq_zero this]

lemma tail_no_progress (ob : Option BuildInfo) (a : StopAction)
    (ha : a ∈ ([StopAction.serverClosed, StopAction.browserClosed] ++
      (match ob with
       | some b => if b.failed then [StopAction.warnFailed]
                   else [StopAction.finalized]
       | none => [StopAction.warnNoBuild]))) :
    isSnapProgress a = false ∧ isUpProgress a = false := by
  rcases ob with _ | b
  · simp at ha
    rcases ha with ha | ha | ha <;> subst ha <;> exact ⟨rfl, rfl⟩
  · by_cases hb : b.failed = true
    · simp [hb] at ha
      rcases ha with ha | ha | ha <;> subst ha <;> exact ⟨rfl, rfl⟩
    · simp [hb] at ha
      rcases ha with ha | ha | ha <;> subst ha <;> exact ⟨rfl, rfl⟩

lemma snapValue?_eq_none (a : StopAction) (h : isSnapProgress a = false) :
    snapValue? a = none := by
  cases a <;> first | rfl | exact absurd h (by simp [isSnapProgress])

lemma upValue?_eq_none (a : StopAction) (h : isUpProgress a = false) :
    upValue? a = none := by
  cases a <;> first | rfl | exact absurd h (by simp [isUpProgress])

/-- C7: a non-force `stop()` from the running state first closes and
drains the snapshot queue — its per-task progress reports count down to
zero and all of them precede every upload progress report — and only
then resumes, closes and drains the upload queue (unless uploads are
skipped, in which case no upload progress is reported); both queues end
empty.  Queue drain/progress semantics are modelled from the spec. -/
theorem c7_stop_drain_order (s : PercyState) (h : s.readyState = some 1) :
    (∃ k,
      (∀ a ∈ (stop s false).2.take k, isUpProgress a = false) ∧
      (∀ a ∈ (stop s false).2.drop k, isSnapProgress a = false)) ∧
    (stop s false).2.filterMap snapValue? =
      (if s.snapshots.tasks.length != 0
       then (List.range s.snapshots.tasks.length).reverse else []) ∧
    (stop s false).2.filterMap upValue? =
      (if s.skipUploads then []
       else if s.uploads.tasks.length != 0
       then (List.range s.uploads.tasks.length).reverse else []) ∧
    (stop s false).1.snapshots.tasks = [] ∧
    (s.skipUploads = false →
      (stop s false).1.uploads.closed = true ∧
      (stop s false).1.uploads.tasks = []) := by
  rw [stop_running_eq s h]
  have hacts := stopDrain_acts s
  refine ⟨⟨((if s.snapshots.tasks.length != 0
      then (List.range s.snapshots.tasks.length).reverse
      else []).map StopAction.snapProgress).length, ?_, ?_⟩, ?_, ?_,
    stopDrain_snapshots_tasks s, stopDrain_uploads_drained s⟩
  · rw [hacts, List.take_left]
    intro a ha
    obtain ⟨n, -, rfl⟩ := List.mem_map.mp ha
    rfl
  · rw [hacts, List.drop_left]
    intro a ha
    rcases List.mem_append.mp ha with hb | ht
    · obtain ⟨n, -, rfl⟩ := List.mem_map.mp hb
      rfl
    · exact (tail_no_progress s.build a ht).1
  · rw [hacts]
    rw [List.filterMap_append, List.filterMap_append]
    have h1 : List.filterMap snapValue?
        ((if s.snapshots.tasks.length != 0
          then (List.range s.snapshots.tasks.length).reverse
          else []).map StopAction.snapProgress) =
        (if s.snapshots.tasks.length != 0
         then (List.range s.snapshots.tasks.length).reverse else []) := by
      rw [List.filterMap_map]
      have hf : (snapValue? ∘ StopAction.snapProgress) = some := rfl
      rw [hf, List.filterMap_some]
    have h2 : List.filterMap snapValue?
        ((if s.skipUploads then []
          else if s.uploads.tasks.length != 0
          then (List.range s.uploads.tasks.length).reverse
          else []).map StopAction.upProgress) = [] := by
      rw [List.filterMap_map]
      simp [snapValue?, Function.comp]
    have h3 : List.filterMap snapValue?
        ([StopAction.serverClosed, StopAction.browserClosed] ++
          (match s.build with
           | some b => if b.failed then [StopAction.warnFailed]
                       else [StopAction.finalized]
           | none => [StopAction.warnNoBuild])) = [] := by
      refine List.filterMap_eq_nil_iff.mpr (fun a ha => ?_)
      exact snapValue?_eq_none a (tail_no_progress s.build a ha).1
    rw [h1, h2, h3]
    simp
  · rw [hacts]
    rw [List.filterMap_append, List.filterMap_append]
    have h1 : List.filterMap upValue?
        ((if s.snapshots.tasks.length != 0
          then (List.range s.snapshots.tasks.length).reverse
          else []).map StopAction.snapProgress) = [] := by
      rw [List.filterMap_map]
      simp [upValue?, Function.comp]
    have h2 : List.filterMap upValue?
        ((if s.skipUploads then []
          else if s.uploads.tasks.length != 0
          then (List.range s.uploads.tasks.length).reverse
          else []).map StopAction.upProgress) =
        (if s.skipUploads then []
         else if s.uploads.tasks.length != 0
         then (List.range s.uploads.tasks.length).reverse else []) := by
      rw [List.filterMap_map]
      have hf : (upValue? ∘ StopAction.upProgress) = some := rfl
      rw [hf, List.filterMap_some]
    have h3 : List.filterMap upValue?
        ([StopAction.serverClosed, StopAction.browserClosed] ++
          (match s.build with
           | some b => if b.failed then [StopAction.warnFailed]
                       else [StopAction.finalized]
           | none => [StopAction.warnNoBuild])) = [] := by
      refine List.filterMap_eq_nil_iff.mpr (fun a ha => ?_)
      exact upValue?_eq_none a (tail_no_progress s.build a ha).2
    rw [h1, h2, h3]
    simp

/-- C7 witness: two queued snapshots and one queued upload drain with
snapshot progress `[1, 0]` strictly before upload progress `[0]`. -/
theorem c7_stop_drain_order_witness :
    (stop { percyInit false false with
        readyState := some 1
        snapshots := ⟨true, false, ["snapshot/a", "snapshot/b"]⟩
        uploads := ⟨true, false, ["upload/a"]⟩
        build := some defaultBuild } false).2.filterMap snapValue? =
      [1, 0] ∧
    (stop { percyInit false false with
        readyState := some 1
        snapshots := ⟨true, false, ["snapshot/a", "snapshot/b"]⟩
        uploads := ⟨true, false, ["upload/a"]⟩
        build := some defaultBuild } false).2.filterMap upValue? =
      [0] := by
  have hc := c7_stop_drain_order { percyInit false false with
      readyState := some 1
      snapshots := ⟨true, false, ["snapshot/a", "snapshot/b"]⟩
      uploads := ⟨true, false, ["upload/a"]⟩
      build := some defaultBuild } rfl
  refine ⟨?_, ?_⟩
  · rw [hc.2.1]
    decide
  · rw [hc.2.2.1]
    decide

/-! ### Navigation wait lemmas -/

lemma watchersAt_succ (myF : Option String) (wu : String)
    (trace : Nat → Tick) (k : Nat) :
    watchersAt myF wu trace (k + 1) =
      ((trace k).events).foldl (stepWatchers myF wu)
        (watchersAt myF wu trace k) := rfl

lemma gotoWaitAux_step_no_stop (myF : Option String) (wu : String)
    (trace : Nat → Tick) (fuel k : Nat)
    (hns : ¬ stopsAt myF wu trace k) :
    gotoWaitAux myF wu trace (fuel + 1) k (watchersAt myF wu trace k) =
      gotoWaitAux myF wu trace fuel (k + 1)
        (watchersAt myF wu trace (k + 1)) := by
  have hc : strTruthy (trace k).closed = false := by
    rcases Bool.eq_false_or_eq_true (strTruthy (trace k).closed) with h | h
    · exact absurd (Or.inl h) hns
    · exact h
  have hf : bothFinished (watchersAt myF wu trace (k + 1)) = false := by
    rcases Bool.eq_false_or_eq_true
        (bothFinished (watchersAt myF wu trace (k + 1))) with h | h
    · exact absurd (Or.inr h) hns
    · exact h
  have hf' : ((watchersAt myF wu trace (k + 1)).1.finished &&
      (watchersAt myF wu trace (k + 1)).2.finished) = false := hf
  simp only [gotoWaitAux, ← watchersAt_succ, hc, hf', Bool.false_eq_true,
    if_false]

lemma gotoWaitAux_timeout (myF : Option String) (wu : String)
    (trace : Nat → Tick) :
    ∀ (fuel k : Nat),
      (∀ j, k ≤ j → j < k + fuel → ¬ stopsAt myF wu trace j) →
      (gotoWaitAux myF wu trace fuel k
        (watchersAt myF wu trace k)).result = .error "Timeout" := by
  intro fuel
  induction fuel with
  | zero => intro k _; rfl
  | succ n ih =>
    intro k h
    rw [gotoWaitAux_step_no_stop myF wu trace n k
      (h k (le_refl k) (by omega))]
    exact ih (k + 1) (fun j hj1 hj2 => h j (by omega) (by omega))

lemma gotoWaitAux_reaches (myF : Option String) (wu : String)
    (trace : Nat → Tick) :
    ∀ (fuel k m : Nat), k ≤ m → m - k < fuel →
      (∀ j, k ≤ j → j < m → ¬ stopsAt myF wu trace j) →
      gotoWaitAux myF wu trace fuel k (watchersAt myF wu trace k) =
        gotoWaitAux myF wu trace (fuel - (m - k)) m
          (watchersAt myF wu trace m) := by
  intro fuel
  induction fuel with
  | zero => intro k m _ h2 _; omega
  | succ n ih =>
    intro k m h1 h2 hpre
    rcases Nat.eq_or_lt_of_le h1 with rfl | hlt
    · simp
    · rw [gotoWaitAux_step_no_stop myF wu trace n k
        (hpre k (le_refl k) hlt)]
      have heq : n + 1 - (m - k) = n - (m - (k + 1)) := by omega
      rw [heq]
      exact ih (k + 1) m (by omega) (by omega)
        (fun j hj1 hj2 => hpre j (by omega) hj2)

lemma gotoWaitAux_closed_at (myF : Option String) (wu : String)
    (trace : Nat → Tick) (f m : Nat) (ws : Watcher × Watcher)
    (hc : strTruthy (trace m).closed = true) :
    (gotoWaitAux myF wu trace (f + 1) m ws).result =
      .error (strVal (trace m).closed) := by
  simp only [gotoWaitAux, hc, if_true]

lemma gotoWaitAux_finished_at (myF : Option String) (wu : String)
    (trace : Nat → Tick) (f m : Nat) (ws : Watcher × Watcher)
    (hc : strTruthy (trace m).closed = false)
    (hf : ((((trace m).events).foldl (stepWatchers myF wu) ws).1.finished &&
      (((trace m).events).foldl (stepWatchers myF wu) ws).2.finished)
        = true) :
    (gotoWaitAux myF wu trace (f + 1) m ws).result = .ok () := by
  simp only [gotoWaitAux, hc, Bool.false_eq_true, if_false, hf, if_true]

lemma goto_nav_error (myF : Option String) (wu : String)
    (navError : Option String) (trace : Nat → Tick)
    (hn : strTruthy navError = true) :
    goto myF wu navError trace =
      ⟨⟨false, false⟩, ⟨false, false⟩,
        .error ("Navigation failed: " ++ strVal navError)⟩ := by
  simp only [goto, hn, if_true]
  rfl

lemma goto_wait_ok (myF : Option String) (wu : String)
    (navError : Option String) (trace : Nat → Tick)
    (hn : strTruthy navError = false)
    (hr : (gotoWait myF wu trace).result = .ok ()) :
    goto myF wu navError trace = gotoWait myF wu trace := by
  unfold goto
  simp only [hn, Bool.false_eq_true, if_false]
  rw [hr]

lemma goto_wait_error (myF : Option String) (wu : String)
    (navError : Option String) (trace : Nat → Tick) (msg : String)
    (hn : strTruthy navError = false)
    (hr : (gotoWait myF wu trace).result = .error msg) :
    goto myF wu navError trace =
      ⟨{ (gotoWait myF wu trace).w1 with attached := false },
       { (gotoWait myF wu trace).w2 with attached := false },
       .error ("Navigation failed: " ++ msg)⟩ := by
  unfold goto
  simp only [hn, Bool.false_eq_true, if_false]
  rw [hr]
  rfl

/-- C4: the navigation wait polls (at the spec-modelled fixed interval)
until both one-shot watchers have finished, fails with the session's
close reason if the session closes first, and fails with a timeout error
when the poll budget derived from the fixed hard timeout of 30000 ms is
exhausted; a truthy navigate error fails immediately; on every failure
path both watchers end detached (no dangling listeners) and the error
message carries the `Navigation failed: ` marker in front. -/
theorem c4_goto_navigation (myF : Option String) (wu : String)
    (navError : Option String) (trace : Nat → Tick) :
    PAGE_TIMEOUT = 30000 ∧
    gotoFuel = PAGE_TIMEOUT / POLL_INTERVAL ∧
    (∀ e, (goto myF wu navError trace).result = .error e →
      (∃ rest, e = "Navigation failed: " ++ rest) ∧
      (goto myF wu navError trace).w1.attached = false ∧
      (goto myF wu navError trace).w2.attached = false) ∧
    (strTruthy navError = true →
      (goto myF wu navError trace).result =
        .error ("Navigation failed: " ++ strVal navError)) ∧
    (strTruthy navError = false →
      (∀ j, j < gotoFuel → ¬ stopsAt myF wu trace j) →
      (goto myF wu navError trace).result =
        .error ("Navigation failed: " ++ "Timeout")) ∧
    (∀ m, strTruthy navError = false → m < gotoFuel →
      (∀ j, j < m → ¬ stopsAt myF wu trace j) →
      tickClosed trace m →
      (goto myF wu navError trace).result =
        .error ("Navigation failed: " ++ strVal (trace m).closed)) ∧
    (∀ m, strTruthy navError = false → m < gotoFuel →
      (∀ j, j < m → ¬ stopsAt myF wu trace j) →
      ¬ tickClosed trace m →
      bothFinished (watchersAt myF wu trace (m + 1)) = true →
      (goto myF wu navError trace).result = .ok ()) := by
  refine ⟨rfl, rfl, ?_, ?_, ?_, ?_, ?_⟩
  · intro e he
    by_cases hn : strTruthy navError = true
    · rw [goto_nav_error myF wu navError trace hn] at he ⊢
      refine ⟨⟨strVal navError, ?_⟩, rfl, rfl⟩
      injection he with h1
      exact h1.symm
    · have hn' := eq_false_of_ne_true hn
      cases hres : (gotoWait myF wu trace).result with
      | ok u =>
        cases u
        rw [goto_wait_ok myF wu navError trace hn' hres, hres] at he
        exact absurd he (by simp)
      | error msg =>
        rw [goto_wait_error myF wu navError trace msg hn' hres] at he ⊢
        refine ⟨⟨msg, ?_⟩, rfl, rfl⟩
        injection he with h1
        exact h1.symm
  · intro hn
    rw [goto_nav_error myF wu navError trace hn]
  · intro hn hstop
    have ht : (gotoWait myF wu trace).result = .error "Timeout" := by
      show (gotoWaitAux myF wu trace gotoFuel 0
        (watchersAt myF wu trace 0)).result = _
      exact gotoWaitAux_timeout myF wu trace gotoFuel 0
        (fun j _ hj2 => hstop j (by omega))
    rw [goto_wait_error myF wu navError trace "Timeout" hn ht]
  · intro m hn hm hpre hc
    have h1 : gotoWait myF wu trace =
        gotoWaitAux myF wu trace (gotoFuel - m) m
          (watchersAt myF wu trace m) := by
      show gotoWaitAux myF wu trace gotoFuel 0
        (watchersAt myF wu trace 0) = _
      have := gotoWaitAux_reaches myF wu trace gotoFuel 0 m (by omega)
        (by omega) (fun j _ hj2 => hpre j hj2)
      simpa using this
    obtain ⟨f, hf⟩ : ∃ f, gotoFuel - m = f + 1 :=
      ⟨gotoFuel - m - 1, by omega⟩
    have hres : (gotoWait myF wu trace).result =
        .error (strVal (trace m).closed) := by
      rw [h1, hf]
      exact gotoWaitAux_closed_at myF wu trace f m _ hc
    rw [goto_wait_error myF wu navError trace _ hn hres]
  · intro m hn hm hpre hcn hbf
    have hc : strTruthy (trace m).closed = false := by
      rcases Bool.eq_false_or_eq_true (strTruthy (trace m).closed) with h | h
      · exact absurd h hcn
      · exact h
    have h1 : gotoWait myF wu trace =
        gotoWaitAux myF wu trace (gotoFuel - m) m
          (watchersAt myF wu trace m) := by
      show gotoWaitAux myF wu trace gotoFuel 0
        (watchersAt myF wu trace 0) = _
      have := gotoWaitAux_reaches myF wu trace gotoFuel 0 m (by omega)
        (by omega) (fun j _ hj2 => hpre j hj2)
      simpa using this
    obtain ⟨f, hf⟩ : ∃ f, gotoFuel - m = f + 1 :=
      ⟨gotoFuel - m - 1, by omega⟩
    have hres : (gotoWait myF wu trace).result = .ok () := by
      rw [h1, hf]
      refine gotoWaitAux_finished_at myF wu trace f m _ hc ?_
      have heq : ((trace m).events).foldl (stepWatchers myF wu)
          (watchersAt myF wu trace m) = watchersAt myF wu trace (m + 1) := rfl
      rw [heq]
      exact hbf
    rw [goto_wait_ok myF wu navError trace hn hres, hres]

/-- C4 witness: with a matching frame-navigated event and a matching
`load` lifecycle event delivered before the first poll, and no close,
`goto` succeeds. -/
theorem c4_goto_navigation_witness :
    (goto (some "f") "load" none
      (fun _ => ⟨[PageEvent.frameNavigated "f",
                  PageEvent.lifecycleEvent "f" "load"], none⟩)).result =
      .ok () := by
  have h := (c4_goto_navigation (some "f") "load" none
    (fun _ => ⟨[PageEvent.frameNavigated "f",
                PageEvent.lifecycleEvent "f" "load"], none⟩)).2.2.2.2.2.2
  exact h 0 rfl (by decide) (fun j hj => absurd hj (by omega))
    (by simp [tickClosed, strTruthy]) (by decide)
